import Mathlib

/-
Verification of run_expriments.py, a batch runner that launches an external
training program once per experiment configuration.  The script is embedded
shallowly: Python dicts become association lists in insertion order, the
slugify regex pipeline becomes structural recursion over character lists, and
the subprocess layer becomes a function from command lines to exit codes.
-/

set_option maxHeartbeats 1000000

namespace RunExperiments

/-- Scalar values appearing in the argument tables: Python ints and strings.
Both are rendered on the command line with the builtin str. -/
inductive PyScalar where
  | int (i : Int)
  | str (s : String)
deriving DecidableEq, Repr

/-- Values of an argument mapping, per the data model of the script: None,
booleans, the value-less FLAG sentinel, scalars, and sequences of scalars
(list or tuple, each element stringified). -/
inductive Value where
  | null
  | bool (b : Bool)
  | flag
  | scalar (x : PyScalar)
  | seq (xs : List PyScalar)
deriving DecidableEq, Repr

/-- Python str applied to a scalar: ints print in decimal with a leading
minus when negative, strings are returned unchanged. -/
def pyStr : PyScalar → String
  | .int i => toString i
  | .str s => s

/-- Embedding of args_to_cli (lines 58 to 82): iterate the mapping in
insertion order; skip None; emit the bare flag for FLAG; emit the bare flag
for True and nothing for False; otherwise emit the flag followed by the
stringified elements of a sequence, or by the stringified scalar. -/
def args_to_cli : List (String × Value) → List String
  | [] => []
  | (key, value) :: rest =>
    match value with
    | .null => args_to_cli rest
    | .flag => ("--" ++ key) :: args_to_cli rest
    | .bool b => if b then ("--" ++ key) :: args_to_cli rest else args_to_cli rest
    | .seq xs => ("--" ++ key) :: (xs.map pyStr ++ args_to_cli rest)
    | .scalar x => ("--" ++ key) :: pyStr x :: args_to_cli rest

/-- ASCII whitespace stripped by the bare str.strip() call in slugify.
The model covers the ASCII space characters; all of them (including every
further Unicode space Python would strip) lie outside the slug character
class, which is what the proofs rely on. -/
def pyIsSpace (c : Char) : Bool :=
  c == ' ' || c == '\t' || c == '\n' || c == '\r' || c == '\x0b' || c == '\x0c'

/-- Membership in the regex character class of letters a to z and A to Z
(code points 97 to 122 and 65 to 90), digits 0 to 9 (48 to 57), underscore
and hyphen, i.e. the characters slugify keeps. -/
def slugChar (c : Char) : Bool :=
  (97 ≤ c.toNat && c.toNat ≤ 122) || (65 ≤ c.toNat && c.toNat ≤ 90) ||
    (48 ≤ c.toNat && c.toNat ≤ 57) || c == '_' || c == '-'

/-- Membership in the lowercase slug alphabet: lowercase letters, digits,
underscore and hyphen. This is the character set of slugify outputs. -/
def lowerSlugChar (c : Char) : Bool :=
  (97 ≤ c.toNat && c.toNat ≤ 122) || (48 ≤ c.toNat && c.toNat ≤ 57) ||
    c == '_' || c == '-'

/-- Embedding of re.sub applied with the pattern that matches one or more
characters outside the slug class: each maximal run of such characters is
replaced by a single hyphen. The boolean records whether the scan is
currently inside a run whose hyphen has already been emitted. -/
def subRuns : Bool → List Char → List Char
  | _, [] => []
  | inRun, c :: rest =>
    if slugChar c then c :: subRuns false rest
    else if inRun then subRuns true rest
    else '-' :: subRuns true rest

/-- Remove the longest suffix whose characters all satisfy p, matching the
right half of str.strip. -/
def dropTrailing (p : Char → Bool) (l : List Char) : List Char :=
  (l.reverse.dropWhile p).reverse

/-- Remove the longest prefix and the longest suffix satisfying p, the
semantics of str.strip with that character test. -/
def stripBoth (p : Char → Bool) (l : List Char) : List Char :=
  dropTrailing p (l.dropWhile p)

/-- The character-list pipeline of slugify (line 55): strip whitespace,
collapse runs of characters outside the slug class to single hyphens, strip
hyphens at both ends, lowercase. -/
def slugifyCore (l : List Char) : List Char :=
  (stripBoth (fun c => c == '-') (subRuns false (stripBoth pyIsSpace l))).map Char.toLower

/-- Embedding of slugify (lines 52 to 55): the pipeline above with the
fallback to the literal run when the result is empty. -/
def slugify (value : String) : String :=
  let r := slugifyCore value.data
  if r.isEmpty then "run" else String.mk r

/-- Reference pipeline following the spec words only: replace runs of
characters outside the class with a hyphen, trim hyphens, lowercase.  It
omits the initial whitespace strip the code performs. -/
def slugifySpecCore (l : List Char) : List Char :=
  (stripBoth (fun c => c == '-') (subRuns false l)).map Char.toLower

/-- Reference definition of the slug, written from the spec sentence:
replace each maximal run of characters outside the class with a hyphen,
trim leading and trailing hyphens, lowercase, and fall back to the literal
run when empty. -/
def slugifySpec (value : String) : String :=
  let r := slugifySpecCore value.data
  if r.isEmpty then "run" else String.mk r

/-- Embedding of the Experiment dataclass: a name and an ordered argument
mapping. -/
structure Experiment where
  name : String
  args : List (String × Value)
deriving DecidableEq, Repr

/-- One step of pathlib joining: append a separator and the component.
PROJECT_ROOT and PROJECT_PARENT are resolved absolute paths, so the plain
separator insertion is exact. -/
def pathJoin (a b : String) : String := a ++ "/" ++ b

/-- Embedding of the dict display that merges base and update mappings:
keys of base keep their positions with updated values winning, and keys
appearing only in updates are appended in their own order. -/
def dictMerge (base updates : List (String × Value)) : List (String × Value) :=
  (base.map fun kv => (kv.1, (List.lookup kv.1 updates).getD kv.2)) ++
    updates.filter fun kv => (List.lookup kv.1 base).isNone

/-- Embedding of dict.setdefault: keep the mapping unchanged when the key
is present (whatever its value, None included), otherwise append the
default binding at the end. -/
def setdefault (m : List (String × Value)) (k : String) (v : Value) :
    List (String × Value) :=
  if (List.lookup k m).isSome then m else m ++ [(k, v)]

/-- Embedding of Experiment.resolved_args (lines 38 to 49), with the
environment-dependent roots str(PROJECT_ROOT) and str(PROJECT_PARENT) as
parameters: merge the experiment args over base, then default model_path
and source_path from the slug of the experiment name. -/
def Experiment.resolved_args (e : Experiment) (root parent : String)
    (base : List (String × Value)) : List (String × Value) :=
  let overrides := dictMerge base e.args
  let withModel := setdefault overrides "model_path"
    (Value.scalar (PyScalar.str
      (pathJoin (pathJoin (pathJoin root "output") "experiments") (slugify e.name))))
  setdefault withModel "source_path"
    (Value.scalar (PyScalar.str
      (pathJoin (pathJoin (pathJoin parent "dataset") "assets") (slugify e.name))))

/-- Embedding of BASE_ARGS (lines 17 to 19). -/
def BASE_ARGS : List (String × Value) := [("eval", Value.bool true)]

/-- Embedding of the static EXPERIMENTS table (lines 85 to 154). -/
def EXPERIMENTS : List Experiment :=
  [ ⟨"bicycle",
      [("resolution", Value.scalar (PyScalar.int 4)),
       ("max_shapes", Value.scalar (PyScalar.int 6400000)),
       ("outdoor", Value.flag)]⟩,
    ⟨"garden",
      [("resolution", Value.scalar (PyScalar.int 4)),
       ("max_shapes", Value.scalar (PyScalar.int 5200000)),
       ("outdoor", Value.flag)]⟩,
    ⟨"stump",
      [("resolution", Value.scalar (PyScalar.int 4)),
       ("max_shapes", Value.scalar (PyScalar.int 4750000)),
       ("outdoor", Value.flag)]⟩,
    ⟨"bonsai",
      [("resolution", Value.scalar (PyScalar.int 2)),
       ("max_shapes", Value.scalar (PyScalar.int 3000000))]⟩,
    ⟨"counter",
      [("resolution", Value.scalar (PyScalar.int 2)),
       ("max_shapes", Value.scalar (PyScalar.int 2500000))]⟩,
    ⟨"room",
      [("resolution", Value.scalar (PyScalar.int 2)),
       ("max_shapes", Value.scalar (PyScalar.int 2100000))]⟩,
    ⟨"kitchen",
      [("resolution", Value.scalar (PyScalar.int 2)),
       ("max_shapes", Value.scalar (PyScalar.int 2400000))]⟩,
    ⟨"train",
      [("resolution", Value.scalar (PyScalar.int 1)),
       ("max_shapes", Value.scalar (PyScalar.int 2500000)),
       ("outdoor", Value.flag)]⟩,
    ⟨"truck",
      [("resolution", Value.scalar (PyScalar.int 1)),
       ("max_shapes", Value.scalar (PyScalar.int 2000000)),
       ("outdoor", Value.flag)]⟩ ]

/-- The first entry of the EXPERIMENTS table, named for the end-to-end
statement about it. -/
def bicycleExperiment : Experiment :=
  ⟨"bicycle",
    [("resolution", Value.scalar (PyScalar.int 4)),
     ("max_shapes", Value.scalar (PyScalar.int 6400000)),
     ("outdoor", Value.flag)]⟩

/-- The ambient process environment: the exit code each spawned command
line would return, plus the environment-dependent strings sys.executable,
str(TRAIN_SCRIPT), str(PROJECT_ROOT) and str(PROJECT_PARENT). -/
structure ExecEnv where
  exec : List String → Int
  pyexe : String
  trainScript : String
  root : String
  parent : String

/-- The command list built by run_experiment (line 159). -/
def commandOf (env : ExecEnv) (e : Experiment) : List String :=
  env.pyexe :: env.trainScript ::
    args_to_cli (e.resolved_args env.root env.parent BASE_ARGS)

/-- Embedding of run_experiment (lines 157 to 164): spawn the command and
block; subprocess.run with check set raises CalledProcessError carrying the
return code exactly when the code is non-zero, modelled as the error case. -/
def run_experiment (env : ExecEnv) (e : Experiment) : Except Int Unit :=
  let code := env.exec (commandOf env e)
  if code = 0 then Except.ok () else Except.error code

/-- Embedding of run_all (lines 167 to 169), instrumented with the list of
experiments actually handed to run_experiment, in order: the loop stops at
the first raised error, which propagates. -/
def run_all (env : ExecEnv) : List Experiment → List Experiment × Except Int Unit
  | [] => ([], Except.ok ())
  | e :: rest =>
    match run_experiment env e with
    | Except.ok _ =>
      let r := run_all env rest
      (e :: r.1, r.2)
    | Except.error c => ([e], Except.error c)

/-- Exit code of the whole script (lines 172 to 173): 0 when run_all
returns normally; when a CalledProcessError escapes, CPython prints the
traceback and terminates the process with status 1 regardless of the
sub-process code carried by the exception. -/
def script_exit_code (env : ExecEnv) : Int :=
  match (run_all env EXPERIMENTS).2 with
  | Except.ok _ => 0
  | Except.error _ => 1

/-! Helper lemmas about characters and the slug pipeline. -/

theorem char_toNat_ofNat {n : Nat} (h : n < 55296) : (Char.ofNat n).toNat = n := by
  rw [Char.ofNat, dif_pos (Or.inl h)]
  rfl

theorem toLower_of_not_upper {c : Char} (h : ¬(65 ≤ c.toNat ∧ c.toNat ≤ 90)) :
    Char.toLower c = c := by
  show (if c.toNat ≥ 65 ∧ c.toNat ≤ 90 then Char.ofNat (c.toNat + 32) else c) = c
  rw [if_neg h]

theorem toNat_toLower_of_upper {c : Char} (h1 : 65 ≤ c.toNat) (h2 : c.toNat ≤ 90) :
    (Char.toLower c).toNat = c.toNat + 32 := by
  show (if c.toNat ≥ 65 ∧ c.toNat ≤ 90 then Char.ofNat (c.toNat + 32) else c).toNat = _
  rw [if_pos ⟨h1, h2⟩, char_toNat_ofNat (by omega)]

theorem slugChar_iff {c : Char} : slugChar c = true ↔
    (97 ≤ c.toNat ∧ c.toNat ≤ 122) ∨ (65 ≤ c.toNat ∧ c.toNat ≤ 90) ∨
      (48 ≤ c.toNat ∧ c.toNat ≤ 57) ∨ c = '_' ∨ c = '-' := by
  simp [slugChar, or_assoc]

theorem lowerSlugChar_iff {c : Char} : lowerSlugChar c = true ↔
    (97 ≤ c.toNat ∧ c.toNat ≤ 122) ∨ (48 ≤ c.toNat ∧ c.toNat ≤ 57) ∨
      c = '_' ∨ c = '-' := by
  simp [lowerSlugChar, or_assoc]

theorem pyIsSpace_iff {c : Char} : pyIsSpace c = true ↔
    c = ' ' ∨ c = '\t' ∨ c = '\n' ∨ c = '\r' ∨ c = '\x0b' ∨ c = '\x0c' := by
  simp [pyIsSpace, or_assoc]

theorem lowerSlugChar_toLower {c : Char} (h : slugChar c = true) :
    lowerSlugChar (Char.toLower c) = true := by
  rcases slugChar_iff.mp h with ⟨h1, h2⟩ | ⟨h1, h2⟩ | ⟨h1, h2⟩ | h | h
  · rw [toLower_of_not_upper (by omega)]
    exact lowerSlugChar_iff.mpr (Or.inl ⟨h1, h2⟩)
  · have hl := toNat_toLower_of_upper h1 h2
    exact lowerSlugChar_iff.mpr (Or.inl ⟨by omega, by omega⟩)
  · rw [toLower_of_not_upper (by omega)]
    exact lowerSlugChar_iff.mpr (Or.inr (Or.inl ⟨h1, h2⟩))
  · subst h; decide
  · subst h; decide

theorem toLower_fixed {c : Char} (h : lowerSlugChar c = true) : Char.toLower c = c := by
  rcases lowerSlugChar_iff.mp h with ⟨h1, h2⟩ | ⟨h1, h2⟩ | h | h
  · exact toLower_of_not_upper (by omega)
  · exact toLower_of_not_upper (by omega)
  · subst h; decide
  · subst h; decide

theorem lowerSlugChar_slugChar {c : Char} (h : lowerSlugChar c = true) :
    slugChar c = true := by
  rcases lowerSlugChar_iff.mp h with ⟨h1, h2⟩ | ⟨h1, h2⟩ | h | h
  · exact slugChar_iff.mpr (Or.inl ⟨h1, h2⟩)
  · exact slugChar_iff.mpr (Or.inr (Or.inr (Or.inl ⟨h1, h2⟩)))
  · exact slugChar_iff.mpr (Or.inr (Or.inr (Or.inr (Or.inl h))))
  · exact slugChar_iff.mpr (Or.inr (Or.inr (Or.inr (Or.inr h))))

theorem lowerSlugChar_not_space {c : Char} (h : lowerSlugChar c = true) :
    pyIsSpace c = false := by
  cases hp : pyIsSpace c with
  | false => rfl
  | true =>
    exfalso
    rcases pyIsSpace_iff.mp hp with h1 | h1 | h1 | h1 | h1 | h1 <;> subst h1 <;>
      exact absurd h (by decide)

theorem space_not_slugChar {c : Char} (h : pyIsSpace c = true) : slugChar c = false := by
  rcases pyIsSpace_iff.mp h with h1 | h1 | h1 | h1 | h1 | h1 <;> subst h1 <;> decide

/-! Lemmas about the run-collapsing scan and the strips. -/

theorem subRuns_true_dropWhile (l : List Char) :
    subRuns true (l.dropWhile pyIsSpace) = subRuns true l := by
  induction l with
  | nil => rfl
  | cons c r ih =>
    cases hw : pyIsSpace c with
    | false => rw [List.dropWhile_cons_of_neg (by simp [hw])]
    | true =>
      rw [List.dropWhile_cons_of_pos hw, ih]
      simp [subRuns, space_not_slugChar hw]

theorem subRuns_false_cases (l : List Char) :
    subRuns false l = subRuns true l ∨ subRuns false l = '-' :: subRuns true l := by
  cases l with
  | nil => exact Or.inl rfl
  | cons c r =>
    cases hc : slugChar c with
    | true => exact Or.inl (by simp [subRuns, hc])
    | false => exact Or.inr (by simp [subRuns, hc])

theorem subRuns_false_dropWhile (l : List Char) :
    subRuns false l = subRuns false (l.dropWhile pyIsSpace) ∨
      subRuns false l = '-' :: subRuns false (l.dropWhile pyIsSpace) := by
  cases l with
  | nil => exact Or.inl rfl
  | cons c r =>
    cases hw : pyIsSpace c with
    | false => rw [List.dropWhile_cons_of_neg (by simp [hw])]; exact Or.inl rfl
    | true =>
      rw [List.dropWhile_cons_of_pos hw]
      have h1 : subRuns false (c :: r) = '-' :: subRuns true r := by
        simp [subRuns, space_not_slugChar hw]
      have h2 : subRuns true r = subRuns true (r.dropWhile pyIsSpace) :=
        (subRuns_true_dropWhile r).symm
      rcases subRuns_false_cases (r.dropWhile pyIsSpace) with h3 | h3
      · exact Or.inr (by rw [h1, h2, h3])
      · exact Or.inl (by rw [h1, h2, h3])

theorem subRuns_concat_not_slug (b : Bool) (l : List Char) (c : Char)
    (h : slugChar c = false) :
    subRuns b (l ++ [c]) = subRuns b l ∨ subRuns b (l ++ [c]) = subRuns b l ++ ['-'] := by
  induction l generalizing b with
  | nil =>
    cases b with
    | false => exact Or.inr (by simp [subRuns, h])
    | true => exact Or.inl (by simp [subRuns, h])
  | cons a r ih =>
    cases ha : slugChar a with
    | true =>
      rcases ih false with h1 | h1
      · exact Or.inl (by simp [subRuns, ha, h1])
      · exact Or.inr (by simp [subRuns, ha, h1])
    | false =>
      cases b with
      | false =>
        rcases ih true with h1 | h1
        · exact Or.inl (by simp [subRuns, ha, h1])
        · exact Or.inr (by simp [subRuns, ha, h1])
      | true =>
        rcases ih true with h1 | h1
        · exact Or.inl (by simp [subRuns, ha, h1])
        · exact Or.inr (by simp [subRuns, ha, h1])

theorem dropTrailing_concat_pos (p : Char → Bool) (l : List Char) (c : Char)
    (h : p c = true) : dropTrailing p (l ++ [c]) = dropTrailing p l := by
  unfold dropTrailing
  rw [List.reverse_append]
  simp [h]

theorem dropTrailing_concat_neg (p : Char → Bool) (l : List Char) (c : Char)
    (h : p c = false) : dropTrailing p (l ++ [c]) = l ++ [c] := by
  unfold dropTrailing
  rw [List.reverse_append]
  simp [List.dropWhile_cons, h]

theorem stripBoth_cons_dash (x : List Char) :
    stripBoth (fun c => c == '-') ('-' :: x) = stripBoth (fun c => c == '-') x := by
  unfold stripBoth
  rw [List.dropWhile_cons_of_pos (by decide)]

theorem stripBoth_concat_dash (x : List Char) :
    stripBoth (fun c => c == '-') (x ++ ['-']) = stripBoth (fun c => c == '-') x := by
  unfold stripBoth
  rw [List.dropWhile_append]
  cases he : (x.dropWhile fun c => c == '-').isEmpty with
  | true =>
    have hx : x.dropWhile (fun c => c == '-') = [] := by
      simpa [List.isEmpty_iff] using he
    simp [he, hx]
  | false =>
    rw [if_neg (by simp [he])]
    exact dropTrailing_concat_pos _ _ _ (by decide)

theorem slugCore_strip_irrelevant (l : List Char) :
    stripBoth (fun c => c == '-') (subRuns false (stripBoth pyIsSpace l)) =
      stripBoth (fun c => c == '-') (subRuns false l) := by
  have step1 : ∀ u : List Char,
      stripBoth (fun c => c == '-') (subRuns false (dropTrailing pyIsSpace u)) =
        stripBoth (fun c => c == '-') (subRuns false u) := by
    intro u
    induction u using List.reverseRecOn with
    | nil => rfl
    | append_singleton y c ih =>
      cases hw : pyIsSpace c with
      | false => rw [dropTrailing_concat_neg _ _ _ hw]
      | true =>
        rw [dropTrailing_concat_pos _ _ _ hw, ih]
        rcases subRuns_concat_not_slug false y c (space_not_slugChar hw) with h | h
        · rw [h]
        · rw [h, stripBoth_concat_dash]
  have step2 : stripBoth (fun c => c == '-') (subRuns false (l.dropWhile pyIsSpace)) =
      stripBoth (fun c => c == '-') (subRuns false l) := by
    rcases subRuns_false_dropWhile l with h | h
    · rw [h]
    · rw [h, stripBoth_cons_dash]
  exact (step1 (l.dropWhile pyIsSpace)).trans step2

/-! Membership and boundary lemmas for the slug pipeline. -/

theorem subRuns_chars (b : Bool) (l : List Char) :
    ∀ c ∈ subRuns b l, slugChar c = true := by
  induction l generalizing b with
  | nil => intro c hc; simp [subRuns] at hc
  | cons a r ih =>
    intro c hc
    cases ha : slugChar a with
    | true =>
      simp only [subRuns, ha, if_true] at hc
      rcases List.mem_cons.mp hc with h | h
      · subst h; exact ha
      · exact ih false c h
    | false =>
      cases b with
      | true =>
        simp only [subRuns, ha, Bool.false_eq_true, if_false, if_true] at hc
        exact ih true c hc
      | false =>
        simp only [subRuns, ha, Bool.false_eq_true, if_false] at hc
        rcases List.mem_cons.mp hc with h | h
        · subst h; decide
        · exact ih true c h

theorem mem_stripBoth (p : Char → Bool) (l : List Char) (c : Char)
    (hc : c ∈ stripBoth p l) : c ∈ l := by
  unfold stripBoth dropTrailing at hc
  have h1 : c ∈ (l.dropWhile p).reverse.dropWhile p := List.mem_reverse.mp hc
  have h2 : c ∈ (l.dropWhile p).reverse := (List.dropWhile_sublist p).subset h1
  exact (List.dropWhile_sublist p).subset (List.mem_reverse.mp h2)

theorem head?_dropWhile_false (p : Char → Bool) (l : List Char) (c : Char)
    (h : (l.dropWhile p).head? = some c) : p c = false := by
  induction l with
  | nil => simp at h
  | cons a r ih =>
    cases ha : p a with
    | false =>
      rw [List.dropWhile_cons_of_neg (by simp [ha])] at h
      simp only [List.head?_cons, Option.some_inj] at h
      subst h; exact ha
    | true =>
      rw [List.dropWhile_cons_of_pos ha] at h
      exact ih h

theorem getLast?_dropWhile (p : Char → Bool) (z : List Char) (c : Char)
    (hc : (z.dropWhile p).getLast? = some c) : z.getLast? = some c := by
  obtain ⟨u, hu⟩ := List.dropWhile_suffix (l := z) p
  rw [← hu, List.getLast?_append, hc]
  rfl

theorem last_stripBoth_false (p : Char → Bool) (l : List Char) (c : Char)
    (hc : (stripBoth p l).getLast? = some c) : p c = false := by
  unfold stripBoth dropTrailing at hc
  rw [List.getLast?_reverse] at hc
  exact head?_dropWhile_false _ _ _ hc

theorem head_stripBoth_false (p : Char → Bool) (l : List Char) (c : Char)
    (hc : (stripBoth p l).head? = some c) : p c = false := by
  unfold stripBoth dropTrailing at hc
  rw [List.head?_reverse] at hc
  have h1 := getLast?_dropWhile _ _ _ hc
  rw [List.getLast?_reverse] at h1
  exact head?_dropWhile_false _ _ _ h1

theorem slugifyCore_chars (l : List Char) :
    ∀ c ∈ slugifyCore l, lowerSlugChar c = true := by
  intro c hc
  unfold slugifyCore at hc
  rcases List.mem_map.mp hc with ⟨c₀, hc₀, rfl⟩
  exact lowerSlugChar_toLower (subRuns_chars false _ c₀ (mem_stripBoth _ _ _ hc₀))

theorem toLower_ne_dash {c : Char} (h : c ≠ '-') : Char.toLower c ≠ '-' := by
  by_cases hu : 65 ≤ c.toNat ∧ c.toNat ≤ 90
  · have hl := toNat_toLower_of_upper hu.1 hu.2
    intro hcon
    rw [hcon] at hl
    have h45 : Char.toNat '-' = 45 := rfl
    omega
  · rw [toLower_of_not_upper hu]
    exact h

theorem slugifyCore_head (l : List Char) (c : Char)
    (hc : (slugifyCore l).head? = some c) : c ≠ '-' := by
  unfold slugifyCore at hc
  rw [List.head?_map] at hc
  rcases Option.map_eq_some'.mp hc with ⟨c₀, hc₀, rfl⟩
  have h1 := head_stripBoth_false _ _ _ hc₀
  exact toLower_ne_dash (by intro hcon; rw [hcon] at h1; simp at h1)

theorem slugifyCore_last (l : List Char) (c : Char)
    (hc : (slugifyCore l).getLast? = some c) : c ≠ '-' := by
  unfold slugifyCore at hc
  rw [List.getLast?_map] at hc
  rcases Option.map_eq_some'.mp hc with ⟨c₀, hc₀, rfl⟩
  have h1 := last_stripBoth_false _ _ _ hc₀
  exact toLower_ne_dash (by intro hcon; rw [hcon] at h1; simp at h1)

/-! Fixpoint lemmas: the pipeline leaves well-formed slugs unchanged. -/

theorem dropWhile_eq_self_of_all (p : Char → Bool) (l : List Char)
    (h : ∀ c ∈ l, p c = false) : l.dropWhile p = l := by
  cases l with
  | nil => rfl
  | cons a r => exact List.dropWhile_cons_of_neg (by simp [h a (List.mem_cons_self a r)])

theorem stripBoth_eq_self_of_all (p : Char → Bool) (l : List Char)
    (h : ∀ c ∈ l, p c = false) : stripBoth p l = l := by
  unfold stripBoth dropTrailing
  rw [dropWhile_eq_self_of_all p l h,
    dropWhile_eq_self_of_all p l.reverse (fun c hc => h c (List.mem_reverse.mp hc)),
    List.reverse_reverse]

theorem subRuns_eq_self (b : Bool) (l : List Char)
    (h : ∀ c ∈ l, slugChar c = true) : subRuns b l = l := by
  induction l generalizing b with
  | nil => rfl
  | cons a r ih =>
    have ha := h a (List.mem_cons_self a r)
    simp only [subRuns, ha, if_true]
    rw [ih false (fun c hc => h c (List.mem_cons_of_mem a hc))]

theorem map_toLower_eq_self (l : List Char)
    (h : ∀ c ∈ l, lowerSlugChar c = true) : l.map Char.toLower = l := by
  induction l with
  | nil => rfl
  | cons a r ih =>
    simp only [List.map_cons]
    rw [toLower_fixed (h a (List.mem_cons_self a r)),
      ih (fun c hc => h c (List.mem_cons_of_mem a hc))]

theorem stripBoth_eq_self_of_bounds (p : Char → Bool) (l : List Char)
    (h1 : ∀ c, l.head? = some c → p c = false)
    (h2 : ∀ c, l.getLast? = some c → p c = false) : stripBoth p l = l := by
  unfold stripBoth dropTrailing
  have e1 : l.dropWhile p = l := by
    cases l with
    | nil => rfl
    | cons a r => exact List.dropWhile_cons_of_neg (by simp [h1 a rfl])
  rw [e1]
  have e2 : l.reverse.dropWhile p = l.reverse := by
    cases hr : l.reverse with
    | nil => rfl
    | cons a t =>
      have ha : l.getLast? = some a := by rw [← List.head?_reverse, hr]; rfl
      exact List.dropWhile_cons_of_neg (by simp [h2 a ha])
  rw [e2, List.reverse_reverse]

theorem slugifyCore_fixpoint (l : List Char) :
    slugifyCore (slugifyCore l) = slugifyCore l := by
  have h1 : stripBoth pyIsSpace (slugifyCore l) = slugifyCore l :=
    stripBoth_eq_self_of_all _ _
      (fun c hc => lowerSlugChar_not_space (slugifyCore_chars l c hc))
  have h2 : subRuns false (slugifyCore l) = slugifyCore l :=
    subRuns_eq_self false _
      (fun c hc => lowerSlugChar_slugChar (slugifyCore_chars l c hc))
  have h3 : stripBoth (fun c => c == '-') (slugifyCore l) = slugifyCore l := by
    apply stripBoth_eq_self_of_bounds
    · intro c hc
      simp [slugifyCore_head l c hc]
    · intro c hc
      simp [slugifyCore_last l c hc]
  have h4 : (slugifyCore l).map Char.toLower = slugifyCore l :=
    map_toLower_eq_self _ (slugifyCore_chars l)
  show (stripBoth (fun c => c == '-')
      (subRuns false (stripBoth pyIsSpace (slugifyCore l)))).map Char.toLower =
    slugifyCore l
  rw [h1, h2, h3, h4]

theorem slugify_of_core (s : String) :
    slugify s =
      if (slugifyCore s.data).isEmpty then "run" else String.mk (slugifyCore s.data) :=
  rfl

theorem slugifySpec_of_core (s : String) :
    slugifySpec s =
      if (slugifySpecCore s.data).isEmpty then "run"
      else String.mk (slugifySpecCore s.data) :=
  rfl

/-! Claim theorems about slugify. -/

/-- C6: slugify agrees with the reference definition written from the spec
(replace maximal runs of characters outside the class with a hyphen, trim
hyphens, lowercase, fall back to run when empty), and every character of
its output lies in the lowercase slug alphabet of lowercase letters,
digits, underscore and hyphen, so the output is filesystem-path-safe.
Determinism is inherent: slugify is a pure function of its argument. -/
theorem c6_slugify_matches_reference (s : String) :
    slugify s = slugifySpec s ∧ ∀ c ∈ (slugify s).data, lowerSlugChar c = true := by
  have hcore : slugifyCore s.data = slugifySpecCore s.data := by
    unfold slugifyCore slugifySpecCore
    rw [slugCore_strip_irrelevant]
  constructor
  · rw [slugify_of_core, slugifySpec_of_core, hcore]
  · rw [slugify_of_core]
    by_cases h : (slugifyCore s.data).isEmpty = true
    · rw [if_pos h]; decide
    · rw [if_neg h]
      exact slugifyCore_chars s.data

/-- C6 witness at the input bicycle: the code pipeline and the reference
pipeline agree there. -/
theorem c6_witness :
    slugify " Bi cycle! " = slugifySpec " Bi cycle! " ∧
      ∀ c ∈ (slugify " Bi cycle! ").data, lowerSlugChar c = true :=
  c6_slugify_matches_reference " Bi cycle! "

/-- C7: slugify is idempotent, since its output consists of slug characters
only, carries no boundary hyphens and no uppercase letters, and the empty
fallback maps run to itself. -/
theorem c7_slugify_idempotent (s : String) : slugify (slugify s) = slugify s := by
  by_cases h : (slugifyCore s.data).isEmpty = true
  · have h1 : slugify s = "run" := by rw [slugify_of_core, if_pos h]
    rw [h1]
    rfl
  · have h1 : slugify s = String.mk (slugifyCore s.data) := by
      rw [slugify_of_core, if_neg h]
    rw [h1, slugify_of_core]
    have h2 : slugifyCore (String.mk (slugifyCore s.data)).data = slugifyCore s.data :=
      slugifyCore_fixpoint s.data
    rw [h2, if_neg h]

/-- C8: slugify never returns the empty string; it is a total pure
function, so it also never fails. -/
theorem c8_slugify_total_nonempty (s : String) : slugify s ≠ "" := by
  rw [slugify_of_core]
  by_cases h : (slugifyCore s.data).isEmpty = true
  · rw [if_pos h]; decide
  · rw [if_neg h]
    intro hc
    have h3 : slugifyCore s.data = [] := congrArg String.data hc
    exact h (by rw [h3]; rfl)

/-! Claim theorems about serialization. -/

/-- C4: args_to_cli walks the mapping in insertion order and emits, per
key: nothing for None; the bare option token for the FLAG sentinel; the
bare token for True and nothing for False; the token followed by the
stringified elements for a sequence; the token followed by the stringified
scalar otherwise; and on the input with a under FLAG and b under the list
of 1 and 2 it produces exactly the four tokens in order. -/
theorem c4_args_to_cli_serialization :
    (∀ (k : String) (rest : List (String × Value)),
      args_to_cli ((k, Value.null) :: rest) = args_to_cli rest) ∧
    (∀ (k : String) (rest : List (String × Value)),
      args_to_cli ((k, Value.flag) :: rest) = ("--" ++ k) :: args_to_cli rest) ∧
    (∀ (k : String) (rest : List (String × Value)),
      args_to_cli ((k, Value.bool true) :: rest) = ("--" ++ k) :: args_to_cli rest) ∧
    (∀ (k : String) (rest : List (String × Value)),
      args_to_cli ((k, Value.bool false) :: rest) = args_to_cli rest) ∧
    (∀ (k : String) (xs : List PyScalar) (rest : List (String × Value)),
      args_to_cli ((k, Value.seq xs) :: rest) =
        ("--" ++ k) :: (xs.map pyStr ++ args_to_cli rest)) ∧
    (∀ (k : String) (x : PyScalar) (rest : List (String × Value)),
      args_to_cli ((k, Value.scalar x) :: rest) =
        ("--" ++ k) :: pyStr x :: args_to_cli rest) ∧
    args_to_cli [("a", Value.flag), ("b", Value.seq [PyScalar.int 1, PyScalar.int 2])] =
      ["--a", "--b", "1", "2"] :=
  ⟨fun _ _ => rfl, fun _ _ => rfl, fun _ _ => rfl, fun _ _ => rfl,
    fun _ _ _ => rfl, fun _ _ _ => rfl, rfl⟩

/-- C10: a key bound to an empty sequence serializes to exactly the single
bare option token, which makes it indistinguishable in the output from the
FLAG sentinel and from boolean true. -/
theorem c10_empty_seq_bare_flag (k : String) (rest : List (String × Value)) :
    args_to_cli ((k, Value.seq []) :: rest) = ("--" ++ k) :: args_to_cli rest ∧
    args_to_cli ((k, Value.seq []) :: rest) = args_to_cli ((k, Value.flag) :: rest) ∧
    args_to_cli ((k, Value.seq []) :: rest) = args_to_cli ((k, Value.bool true) :: rest) :=
  ⟨rfl, rfl, rfl⟩

/-! Lookup lemmas for the merge and the defaults. -/

theorem lookup_mapMerge (k : String) (args base : List (String × Value)) :
    List.lookup k (base.map fun kv => (kv.1, (List.lookup kv.1 args).getD kv.2)) =
      (List.lookup k base).map fun v => (List.lookup k args).getD v := by
  induction base with
  | nil => rfl
  | cons kv rest ih =>
    obtain ⟨k₀, v₀⟩ := kv
    cases hk : k == k₀ with
    | true =>
      have hkk : k = k₀ := by simpa using hk
      subst hkk
      simp [List.lookup_cons, List.map_cons]
    | false =>
      simp [List.lookup_cons, List.map_cons, hk, ih]

theorem lookup_filterAbsent (k : String) (updates base : List (String × Value)) :
    List.lookup k (updates.filter fun kv => (List.lookup kv.1 base).isNone) =
      if (List.lookup k base).isNone then List.lookup k updates else none := by
  induction updates with
  | nil => simp
  | cons kv rest ih =>
    obtain ⟨k₁, v₁⟩ := kv
    cases hk : k == k₁ with
    | true =>
      have hkk : k = k₁ := by simpa using hk
      subst hkk
      cases hb : (List.lookup k base).isNone with
      | true => simp [List.filter_cons, hb, List.lookup_cons, ih]
      | false => simp [List.filter_cons, hb, List.lookup_cons, ih]
    | false =>
      cases hb : (List.lookup k₁ base).isNone with
      | true => simp [List.filter_cons, hb, List.lookup_cons, hk, ih]
      | false => simp [List.filter_cons, hb, List.lookup_cons, hk, ih]

theorem lookup_dictMerge (k : String) (base updates : List (String × Value)) :
    List.lookup k (dictMerge base updates) =
      (List.lookup k updates).or (List.lookup k base) := by
  unfold dictMerge
  rw [List.lookup_append, lookup_mapMerge, lookup_filterAbsent]
  cases hb : List.lookup k base <;> cases hu : List.lookup k updates <;> simp

theorem lookup_setdefault (k k₀ : String) (m : List (String × Value)) (v : Value) :
    List.lookup k (setdefault m k₀ v) =
      if (List.lookup k₀ m).isSome then List.lookup k m
      else (List.lookup k m).or (if k == k₀ then some v else none) := by
  unfold setdefault
  cases hp : (List.lookup k₀ m).isSome with
  | true => simp [hp]
  | false =>
    simp only [hp, Bool.false_eq_true, if_false]
    rw [List.lookup_append]
    congr 1
    cases hk : k == k₀ <;> simp [List.lookup_cons, hk]

theorem lookup_setdefault_self (k : String) (m : List (String × Value)) (v : Value) :
    List.lookup k (setdefault m k v) = (List.lookup k m).or (some v) := by
  rw [lookup_setdefault]
  cases h : List.lookup k m <;> simp [h]

theorem lookup_setdefault_other (k k₀ : String) (h : (k == k₀) = false)
    (m : List (String × Value)) (v : Value) :
    List.lookup k (setdefault m k₀ v) = List.lookup k m := by
  rw [lookup_setdefault]
  cases hp : (List.lookup k₀ m).isSome <;> simp [h, hp]

theorem resolved_args_eq (e : Experiment) (root parent : String)
    (base : List (String × Value)) :
    e.resolved_args root parent base =
      setdefault
        (setdefault (dictMerge base e.args) "model_path"
          (Value.scalar (PyScalar.str
            (pathJoin (pathJoin (pathJoin root "output") "experiments") (slugify e.name)))))
        "source_path"
        (Value.scalar (PyScalar.str
          (pathJoin (pathJoin (pathJoin parent "dataset") "assets") (slugify e.name)))) :=
  rfl

/-- C3: resolved_args shallow-merges the experiment args over base with
experiment keys winning; the result always contains model_path and
source_path; the slug-derived defaults are assigned only when the key is
absent after the merge, so a merged (in particular experiment-supplied)
value for either key is never overwritten. -/
theorem c3_resolved_args_merge_defaults (root parent : String)
    (base : List (String × Value)) (e : Experiment) :
    (∀ k, List.lookup k (dictMerge base e.args) =
      (List.lookup k e.args).or (List.lookup k base)) ∧
    (List.lookup "model_path" (e.resolved_args root parent base)).isSome = true ∧
    (List.lookup "source_path" (e.resolved_args root parent base)).isSome = true ∧
    (∀ v, List.lookup "model_path" (dictMerge base e.args) = some v →
      List.lookup "model_path" (e.resolved_args root parent base) = some v) ∧
    (∀ v, List.lookup "source_path" (dictMerge base e.args) = some v →
      List.lookup "source_path" (e.resolved_args root parent base) = some v) ∧
    (List.lookup "model_path" (dictMerge base e.args) = none →
      List.lookup "model_path" (e.resolved_args root parent base) =
        some (Value.scalar (PyScalar.str
          (pathJoin (pathJoin (pathJoin root "output") "experiments") (slugify e.name))))) ∧
    (List.lookup "source_path" (dictMerge base e.args) = none →
      List.lookup "source_path" (e.resolved_args root parent base) =
        some (Value.scalar (PyScalar.str
          (pathJoin (pathJoin (pathJoin parent "dataset") "assets") (slugify e.name))))) := by
  have hm : List.lookup "model_path" (e.resolved_args root parent base) =
      (List.lookup "model_path" (dictMerge base e.args)).or
        (some (Value.scalar (PyScalar.str
          (pathJoin (pathJoin (pathJoin root "output") "experiments") (slugify e.name))))) := by
    rw [resolved_args_eq, lookup_setdefault_other _ _ (by decide), lookup_setdefault_self]
  have hs : List.lookup "source_path" (e.resolved_args root parent base) =
      (List.lookup "source_path" (dictMerge base e.args)).or
        (some (Value.scalar (PyScalar.str
          (pathJoin (pathJoin (pathJoin parent "dataset") "assets") (slugify e.name))))) := by
    rw [resolved_args_eq, lookup_setdefault_self,
      lookup_setdefault_other _ _ (by decide)]
  refine ⟨fun k => lookup_dictMerge k base e.args, ?_, ?_, ?_, ?_, ?_, ?_⟩
  · rw [hm]; cases h : List.lookup "model_path" (dictMerge base e.args) <;> simp
  · rw [hs]; cases h : List.lookup "source_path" (dictMerge base e.args) <;> simp
  · intro v hv; rw [hm, hv]; rfl
  · intro v hv; rw [hs, hv]; rfl
  · intro hv; rw [hm, hv]; rfl
  · intro hv; rw [hs, hv]; rfl

/-- C3 witness: an experiment that supplies its own model_path keeps it
through resolution. -/
theorem c3_witness :
    List.lookup "model_path"
      ((Experiment.mk "x" [("model_path", Value.scalar (PyScalar.str "custom"))]).resolved_args
        "R" "P" BASE_ARGS) = some (Value.scalar (PyScalar.str "custom")) :=
  (c3_resolved_args_merge_defaults "R" "P" BASE_ARGS
    ⟨"x", [("model_path", Value.scalar (PyScalar.str "custom"))]⟩).2.2.2.1 _ (by decide)

/-- C9: a null binding supplied by the experiment for model_path, and
independently one for source_path, survives resolution unchanged, because
setdefault only tests key presence; serialization skips null values, so
the command line carries no token for such a key even though it is present
in the mapping, as the concrete instance at the end shows. -/
theorem c9_null_paths_kept (root parent : String) (base : List (String × Value))
    (e : Experiment) :
    (List.lookup "model_path" e.args = some Value.null →
      List.lookup "model_path" (e.resolved_args root parent base) = some Value.null) ∧
    (List.lookup "source_path" e.args = some Value.null →
      List.lookup "source_path" (e.resolved_args root parent base) = some Value.null) ∧
    (∀ (k : String) (rest : List (String × Value)),
      args_to_cli ((k, Value.null) :: rest) = args_to_cli rest) ∧
    args_to_cli ((Experiment.mk "x"
      [("model_path", Value.null), ("source_path", Value.null)]).resolved_args
        root parent BASE_ARGS) = ["--eval"] := by
  refine ⟨?_, ?_, fun _ _ => rfl, rfl⟩
  · intro hm
    have h1 : List.lookup "model_path" (dictMerge base e.args) = some Value.null := by
      rw [lookup_dictMerge, hm]; rfl
    rw [resolved_args_eq, lookup_setdefault_other _ _ (by decide),
      lookup_setdefault_self, h1]
    rfl
  · intro hs
    have h2 : List.lookup "source_path" (dictMerge base e.args) = some Value.null := by
      rw [lookup_dictMerge, hs]; rfl
    rw [resolved_args_eq, lookup_setdefault_self,
      lookup_setdefault_other _ _ (by decide), h2]
    rfl

/-- C9 witness: an experiment that nulls only model_path keeps the null in
the resolved mapping. -/
theorem c9_witness :
    List.lookup "model_path"
      ((Experiment.mk "x" [("model_path", Value.null)]).resolved_args
        "R" "P" BASE_ARGS) = some Value.null :=
  (c9_null_paths_kept "R" "P" BASE_ARGS ⟨"x", [("model_path", Value.null)]⟩).1
    (by decide)

theorem path_model_bicycle (root : String) :
    pathJoin (pathJoin (pathJoin root "output") "experiments") (slugify "bicycle") =
      root ++ "/output/experiments/bicycle" := by
  have hslug : slugify "bicycle" = "bicycle" := rfl
  rw [hslug]
  simp only [pathJoin, String.append_assoc]
  congr 1

theorem path_source_bicycle (parent : String) :
    pathJoin (pathJoin (pathJoin parent "dataset") "assets") (slugify "bicycle") =
      parent ++ "/dataset/assets/bicycle" := by
  have hslug : slugify "bicycle" = "bicycle" := rfl
  rw [hslug]
  simp only [pathJoin, String.append_assoc]
  congr 1

/-- C5: the first table entry is the bicycle experiment; merging its args
with the base mapping resolves to the expected mapping in insertion order
with the two defaulted path entries last, and it serializes to exactly the
expected token list. -/
theorem c5_bicycle_end_to_end (root parent : String) :
    EXPERIMENTS.head? = some bicycleExperiment ∧
    bicycleExperiment.resolved_args root parent BASE_ARGS =
      [("eval", Value.bool true),
       ("resolution", Value.scalar (PyScalar.int 4)),
       ("max_shapes", Value.scalar (PyScalar.int 6400000)),
       ("outdoor", Value.flag),
       ("model_path", Value.scalar (PyScalar.str (root ++ "/output/experiments/bicycle"))),
       ("source_path", Value.scalar (PyScalar.str (parent ++ "/dataset/assets/bicycle")))] ∧
    args_to_cli (bicycleExperiment.resolved_args root parent BASE_ARGS) =
      ["--eval", "--resolution", "4", "--max_shapes", "6400000", "--outdoor",
       "--model_path", root ++ "/output/experiments/bicycle",
       "--source_path", parent ++ "/dataset/assets/bicycle"] := by
  have hmp := path_model_bicycle root
  have hsp := path_source_bicycle parent
  have hres : bicycleExperiment.resolved_args root parent BASE_ARGS =
      [("eval", Value.bool true),
       ("resolution", Value.scalar (PyScalar.int 4)),
       ("max_shapes", Value.scalar (PyScalar.int 6400000)),
       ("outdoor", Value.flag),
       ("model_path", Value.scalar (PyScalar.str
         (pathJoin (pathJoin (pathJoin root "output") "experiments") (slugify "bicycle")))),
       ("source_path", Value.scalar (PyScalar.str
         (pathJoin (pathJoin (pathJoin parent "dataset") "assets") (slugify "bicycle"))))] :=
    rfl
  refine ⟨rfl, ?_, ?_⟩
  · rw [hres, hmp, hsp]
  · have hcli : args_to_cli (bicycleExperiment.resolved_args root parent BASE_ARGS) =
        ["--eval", "--resolution", "4", "--max_shapes", "6400000", "--outdoor",
         "--model_path",
         pathJoin (pathJoin (pathJoin root "output") "experiments") (slugify "bicycle"),
         "--source_path",
         pathJoin (pathJoin (pathJoin parent "dataset") "assets") (slugify "bicycle")] :=
      rfl
    rw [hcli, hmp, hsp]

/-! Claims about batch execution and the process exit code. -/

theorem run_experiment_ok (env : ExecEnv) (e : Experiment)
    (h : env.exec (commandOf env e) = 0) : run_experiment env e = Except.ok () := by
  show (if env.exec (commandOf env e) = 0 then (Except.ok () : Except Int Unit)
    else Except.error (env.exec (commandOf env e))) = Except.ok ()
  rw [if_pos h]

theorem run_experiment_error (env : ExecEnv) (e : Experiment)
    (h : env.exec (commandOf env e) ≠ 0) :
    run_experiment env e = Except.error (env.exec (commandOf env e)) := by
  show (if env.exec (commandOf env e) = 0 then (Except.ok () : Except Int Unit)
    else Except.error (env.exec (commandOf env e))) = _
  rw [if_neg h]

theorem run_all_ok_of_all_zero (env : ExecEnv) (l : List Experiment)
    (h : ∀ e ∈ l, env.exec (commandOf env e) = 0) :
    run_all env l = (l, Except.ok ()) := by
  induction l with
  | nil => rfl
  | cons e rest ih =>
    unfold run_all
    rw [run_experiment_ok env e (h e (List.mem_cons_self e rest)),
      ih (fun x hx => h x (List.mem_cons_of_mem e hx))]

/-- C1 counterexample: when every spawned sub-process exits with code 5,
the first failing sub-process has exit code 5, but the script process
terminates with exit code 1 (the CPython status for an uncaught
CalledProcessError), which differs from 5. -/
theorem c1_counterexample :
    (run_all ⟨fun _ => 5, "python3", "train.py", "R", "P"⟩ EXPERIMENTS).2 =
      Except.error 5 ∧
    script_exit_code ⟨fun _ => 5, "python3", "train.py", "R", "P"⟩ = 1 ∧
    (1 : Int) ≠ 5 :=
  ⟨rfl, rfl, by decide⟩

/-- C1 (amended): the process exit code is 0 when every sub-process in the
fixed experiment list succeeds; when some sub-process exits non-zero the
batch aborts through an uncaught CalledProcessError and the process exit
code is 1 regardless of that sub-process code (so the two coincide only
when the failing code is itself 1). -/
theorem c1_exit_code_amended (env : ExecEnv) :
    ((∀ e ∈ EXPERIMENTS, env.exec (commandOf env e) = 0) →
      script_exit_code env = 0) ∧
    (∀ c : Int, (run_all env EXPERIMENTS).2 = Except.error c →
      script_exit_code env = 1) := by
  constructor
  · intro h
    unfold script_exit_code
    rw [run_all_ok_of_all_zero env EXPERIMENTS h]
  · intro c hc
    unfold script_exit_code
    rw [hc]

/-- C1 witness: with every sub-process succeeding, the script exits 0. -/
theorem c1_witness :
    script_exit_code ⟨fun _ => 0, "python3", "train.py", "R", "P"⟩ = 0 :=
  (c1_exit_code_amended ⟨fun _ => 0, "python3", "train.py", "R", "P"⟩).1
    (fun _ _ => rfl)

/-- C2: if the sub-process spawned for the experiment at position i exits
non-zero (and those before it succeeded, which is what makes position i
reached), then run_all invokes exactly the experiments at positions 0
through i, in order and each once, and propagates the error: nothing after
position i is invoked and position i is not retried. -/
theorem c2_fail_fast_no_subsequent (env : ExecEnv) (l : List Experiment) (i : Nat)
    (h : i < l.length)
    (hpre : ∀ j : Fin l.length, (j : Nat) < i → env.exec (commandOf env (l.get j)) = 0)
    (hfail : env.exec (commandOf env (l.get ⟨i, h⟩)) ≠ 0) :
    run_all env l =
      (l.take (i + 1), Except.error (env.exec (commandOf env (l.get ⟨i, h⟩)))) := by
  induction l generalizing i with
  | nil => exact absurd h (Nat.not_lt_zero i)
  | cons e rest ih =>
    cases i with
    | zero =>
      unfold run_all
      rw [run_experiment_error env e hfail]
      rfl
    | succ i' =>
      have h' : i' < rest.length := Nat.lt_of_succ_lt_succ h
      have h0 : env.exec (commandOf env e) = 0 :=
        hpre ⟨0, Nat.zero_lt_succ _⟩ (Nat.succ_pos i')
      have hrest := ih i' h' (fun j hj => hpre j.succ (Nat.succ_lt_succ hj)) hfail
      unfold run_all
      rw [run_experiment_ok env e h0]
      show (e :: (run_all env rest).1, (run_all env rest).2) = _
      rw [hrest]
      rfl

/-- C2 witness: with every spawn failing with code 3, the batch invokes
only the first experiment and propagates error 3. -/
theorem c2_witness :
    run_all ⟨fun _ => 3, "python3", "train.py", "R", "P"⟩ EXPERIMENTS =
      (EXPERIMENTS.take 1, Except.error 3) :=
  c2_fail_fast_no_subsequent ⟨fun _ => 3, "python3", "train.py", "R", "P"⟩
    EXPERIMENTS 0 (by decide)
    (fun _ hj => absurd hj (Nat.not_lt_zero _))
    (by decide)

end RunExperiments
